import Mathlib

/-!
Shallow embedding of the admission-control core of the repository
(src/unnamed/part_001, `createLLMBulkhead` and its helpers).

The source is single-threaded async TypeScript. Pure helpers become Lean
functions. The two pieces of mutable state owned by a bulkhead instance —
the token ledger counter `inFlightTokens` and the deduplication registry
(`dedupMap`, `dedupHits`) — become explicit state values threaded through
step functions, plus small-step relations for reachability arguments.
The external concurrency gate (`async-bulkhead-ts`) is modelled by its
interface only: the outcome of `bulkhead.acquire` is an input (`GateResult`),
and each `await` point of `_acquire` is a parameter giving the ledger value
observed when the continuation resumes, so interleaving with other requests
is captured by quantifying over that value.
-/

/-- A chat message, as in the `LLMMessage` type of the source. -/
structure LLMMessage where
  role : String
  content : String
deriving DecidableEq, Repr

/-- A request: an ordered message list plus the optional output-size hint,
as in the `LLMRequest` type of the source. -/
structure LLMRequest where
  messages : List LLMMessage
  max_tokens : Option Int := none
deriving DecidableEq, Repr

/-- A token estimate, as in the `TokenEstimate` type of the source. -/
structure TokenEstimate where
  input : Int
  maxOutput : Int
deriving DecidableEq, Repr

/-- Rejection reasons of the base concurrency gate (`async-bulkhead-ts`). -/
inductive GateRejectReason where
  | concurrency_limit
  | queue_limit
  | timeout
  | aborted
deriving DecidableEq, Repr

/-- The extended reason type of the source: the base reasons plus
`budget_limit` (`LLMRejectReason`). -/
inductive LLMRejectReason where
  | concurrency_limit
  | queue_limit
  | timeout
  | aborted
  | budget_limit
deriving DecidableEq, Repr

/-- Inclusion of base gate reasons into the extended reason type
(in the source this is implicit subtyping of string unions). -/
def liftReason : GateRejectReason → LLMRejectReason
  | .concurrency_limit => .concurrency_limit
  | .queue_limit => .queue_limit
  | .timeout => .timeout
  | .aborted => .aborted

/-- The typed rejection error thrown by `run` (`class LLMBulkheadRejectedError`).
Only the `reason` field is data; `code`, `errName` and `message` are the
fixed readonly members of the class. -/
structure LLMBulkheadRejectedError where
  reason : LLMRejectReason
deriving DecidableEq, Repr

/-- Rendering of a reason as the string the source uses. -/
def reasonText : LLMRejectReason → String
  | .concurrency_limit => "concurrency_limit"
  | .queue_limit => "queue_limit"
  | .timeout => "timeout"
  | .aborted => "aborted"
  | .budget_limit => "budget_limit"

/-- The readonly `code` member of `LLMBulkheadRejectedError`. -/
def LLMBulkheadRejectedError.code (_ : LLMBulkheadRejectedError) : String :=
  "LLM_BULKHEAD_REJECTED"

/-- The `name` member set in the constructor of `LLMBulkheadRejectedError`. -/
def LLMBulkheadRejectedError.errName (_ : LLMBulkheadRejectedError) : String :=
  "LLMBulkheadRejectedError"

/-- The `message` member set in the constructor of `LLMBulkheadRejectedError`. -/
def LLMBulkheadRejectedError.message (e : LLMBulkheadRejectedError) : String :=
  "LLM bulkhead rejected: " ++ reasonText e.reason

/-- Reservation cost of a request under an estimator:
`estimate.input + estimate.maxOutput`, as computed at both call sites in
the source (`tryReserveTokens` and the pre-check of `_acquire`). -/
def neededTokens (estimator : LLMRequest → TokenEstimate) (request : LLMRequest) : Int :=
  (estimator request).input + (estimator request).maxOutput

/-- Function `tryReserveTokens` of the source. State is the ledger counter
`inFlightTokens`. Returns the reserved amount (`some 0` when no budget is
configured, mirroring `return 0`; `none` mirroring `return null` on ceiling
overflow) together with the updated counter. -/
def tryReserveTokens (budget : Option Int) (estimator : LLMRequest → TokenEstimate)
    (request : LLMRequest) (inFlightTokens : Int) : Option Int × Int :=
  match budget with
  | none => (some 0, inFlightTokens)
  | some b =>
      let estimate := estimator request
      let needed := estimate.input + estimate.maxOutput
      if inFlightTokens + needed > b then (none, inFlightTokens)
      else (some needed, inFlightTokens + needed)

/-- Function `releaseTokens` of the source:
`inFlightTokens = Math.max(0, inFlightTokens - reserved)`. -/
def releaseTokens (reserved inFlightTokens : Int) : Int :=
  max 0 (inFlightTokens - reserved)

/-- One ledger mutation performed by a bulkhead with budget `b` configured:
either the post-grant atomic check-and-reserve of `_acquire`
(`tryReserveTokens`), or a release of a previously reserved (hence, for an
estimator with non-negative components, non-negative) amount through a
wrapped token, including hypothetical double releases of the same amount. -/
inductive LedgerStep (b : Int) (estimator : LLMRequest → TokenEstimate) : Int → Int → Prop where
  | reserve (request : LLMRequest) (s : Int) :
      LedgerStep b estimator s (tryReserveTokens (some b) estimator request s).2
  | release (amount s : Int) (h : 0 ≤ amount) :
      LedgerStep b estimator s (releaseTokens amount s)

/-- Ledger states reachable from the initial `let inFlightTokens = 0` by any
sequence of reserve and release calls. -/
def LedgerReachable (b : Int) (estimator : LLMRequest → TokenEstimate) (s : Int) : Prop :=
  Relation.ReflTransGen (LedgerStep b estimator) 0 s

/-- The `tokenBudget` block of the `stats()` snapshot of the source. -/
structure TokenBudgetStats where
  budget : Int
  inFlightTokens : Int
  available : Int
deriving DecidableEq, Repr

/-- The `tokenBudget` block computed by `stats()` in the source. -/
def statsTokenBudget (b inFlightTokens : Int) : TokenBudgetStats :=
  { budget := b, inFlightTokens := inFlightTokens,
    available := max 0 (b - inFlightTokens) }

/-- Observable state of one composite token produced by `wrapToken`, together
with what it guards: the closured `released` flag, how many times the base
slot token release was invoked, whether the gate slot is still occupied by
this admission, and the ledger counter. -/
structure TokenReleaseState where
  released : Bool
  baseReleaseCalls : Nat
  slotHeld : Bool
  ledger : Int
deriving DecidableEq, Repr

/-- One call of the `release()` closure returned by `wrapToken` in the source:
an early return when the flag is set; otherwise the flag is set first, then
`base.release()` runs inside `try` (its outcome, success or a thrown `e`, is
the input `baseOutcome`), and `releaseTokens` runs in the `finally` block, so
the ledger is decremented even when `base.release()` throws; a thrown error
is not caught and is returned as the second component. -/
def wrapTokenRelease {ε : Type} (reserved : Int) (baseOutcome : Except ε Unit)
    (s : TokenReleaseState) : TokenReleaseState × Option ε :=
  if s.released then (s, none)
  else
    match baseOutcome with
    | .ok _ =>
        ({ released := true, baseReleaseCalls := s.baseReleaseCalls + 1,
           slotHeld := false, ledger := releaseTokens reserved s.ledger }, none)
    | .error e =>
        ({ released := true, baseReleaseCalls := s.baseReleaseCalls + 1,
           slotHeld := s.slotHeld, ledger := releaseTokens reserved s.ledger }, some e)

/-- A throw-free release call (the base token release returns normally). -/
def wrapTokenReleaseOk (reserved : Int) (s : TokenReleaseState) : TokenReleaseState :=
  (wrapTokenRelease reserved (Except.ok () : Except Unit Unit) s).1

/-- Outcome of `await bulkhead.acquire(mergedOptions)` in `_acquire`: the
external gate either grants a slot or rejects with a base reason. -/
inductive GateResult where
  | granted
  | rejected (reason : GateRejectReason)
deriving DecidableEq, Repr

/-- Result value of `_acquire`: a composite token holding a reservation of
`reserved` tokens, or a typed rejection. -/
inductive AcquireResult where
  | ok (reserved : Int)
  | rejected (reason : LLMRejectReason)
deriving DecidableEq, Repr

/-- What one `_acquire` call returns and does: its result, the ledger counter
at return (relative to the value this call observed), whether
`bulkhead.acquire` was invoked at all, and whether a just-granted slot was
released back to the gate during the call. -/
structure AcquireOutcome where
  result : AcquireResult
  ledger : Int
  gateCalled : Bool
  slotReturned : Bool
deriving DecidableEq, Repr

/-- The read-only budget pre-check at the top of `_acquire`: with a budget
configured, compute the estimate and test
`inFlightTokens + needed > budget.budget` without mutating anything. -/
def budgetPreCheckFails (budget : Option Int) (estimator : LLMRequest → TokenEstimate)
    (request : LLMRequest) (inFlightTokens : Int) : Bool :=
  match budget with
  | none => false
  | some b => decide (inFlightTokens + neededTokens estimator request > b)

/-- Function `_acquire` of the source. `ledgerAtPre` is the ledger value when
the call starts (used by the read-only pre-check); `ledgerAtGrant` is the
ledger value observed after `await bulkhead.acquire` resumes — other requests
may have changed it while this one waited, which is why the two are separate
inputs. On a pre-check failure the gate is never called; on a gate rejection
the base reason is surfaced; on a grant, `tryReserveTokens` re-checks and
reserves atomically, and if it fails the just-granted slot is released back
(`r.token.release()`) and the call rejects with `budget_limit`. -/
def acquireModel (budget : Option Int) (estimator : LLMRequest → TokenEstimate)
    (request : LLMRequest) (ledgerAtPre : Int) (gateResult : GateResult)
    (ledgerAtGrant : Int) : AcquireOutcome :=
  if budgetPreCheckFails budget estimator request ledgerAtPre then
    { result := .rejected .budget_limit, ledger := ledgerAtPre,
      gateCalled := false, slotReturned := false }
  else
    match gateResult with
    | .rejected reason =>
        { result := .rejected (liftReason reason), ledger := ledgerAtGrant,
          gateCalled := true, slotReturned := false }
    | .granted =>
        match tryReserveTokens budget estimator request ledgerAtGrant with
        | (none, l) =>
            { result := .rejected .budget_limit, ledger := l,
              gateCalled := true, slotReturned := true }
        | (some reserved, l) =>
            { result := .ok reserved, ledger := l,
              gateCalled := true, slotReturned := false }

/-- Errors with which the future returned by `run` can settle: the typed
admission rejection, or an error of type `ε` thrown by the work function
`fn` and propagated unchanged. -/
inductive RunError (ε : Type) where
  | rejection (e : LLMBulkheadRejectedError)
  | fnError (e : ε)
deriving DecidableEq, Repr

/-- What one `run` call (deduplication disabled, lines 538 to 571 of the
source) observably does: the settlement of its returned future, the ledger
at settlement time, whether this call still holds a gate slot when its
future settles, and whether `fn` was invoked. -/
structure RunOutcome (ε τ : Type) where
  result : Except (RunError ε) τ
  ledger : Int
  slotHeldAtSettle : Bool
  fnInvoked : Bool

/-- Function `run` of the source on the direct (no deduplication) path:
`_acquire`, then on rejection throw `LLMBulkheadRejectedError(reason)`; on
success run `fn` with `r.token.release()` in a `finally` block, so slot and
reservation are returned before the returned future settles, on normal
completion and on a thrown error alike; the error of `fn` is re-thrown
unchanged. `fnOutcome` is the settlement of the future `fn` returns. -/
def runDirectModel {ε τ : Type} (budget : Option Int)
    (estimator : LLMRequest → TokenEstimate) (request : LLMRequest)
    (ledgerAtPre : Int) (gateResult : GateResult) (ledgerAtGrant : Int)
    (fnOutcome : Except ε τ) : RunOutcome ε τ :=
  let a := acquireModel budget estimator request ledgerAtPre gateResult ledgerAtGrant
  match a.result with
  | .rejected reason =>
      { result := .error (.rejection { reason := reason }), ledger := a.ledger,
        slotHeldAtSettle := false, fnInvoked := false }
  | .ok reserved =>
      let afterRelease := releaseTokens reserved a.ledger
      match fnOutcome with
      | .ok v =>
          { result := .ok v, ledger := afterRelease,
            slotHeldAtSettle := false, fnInvoked := true }
      | .error e =>
          { result := .error (.fnError e), ledger := afterRelease,
            slotHeldAtSettle := false, fnInvoked := true }

/-- Lookup in the deduplication map (`dedupMap.get(key)`), the map being an
association list with the uniqueness of keys maintained by the code. -/
def lookupKey (m : List (String × Nat)) (k : String) : Option Nat :=
  match m with
  | [] => none
  | (k1, v) :: rest => if k1 = k then some v else lookupKey rest k

/-- Deletion from the deduplication map (`dedupMap.delete(key)`). -/
def eraseKey (m : List (String × Nat)) (k : String) : List (String × Nat) :=
  match m with
  | [] => []
  | (k1, v) :: rest => if k1 = k then rest else (k1, v) :: eraseKey rest k

/-- The `cleanup` closure of `run`: re-read the map entry for the key and
delete it only if it still holds the promise of this same leader (identified here
by its id `pid`); otherwise leave the map alone. The surrounding
`try ... catch` of the source makes the closure total, which this function
is by construction. -/
def cleanupMap (k : String) (pid : Nat) (m : List (String × Nat)) : List (String × Nat) :=
  match lookupKey m k with
  | some p => if p = pid then eraseKey m k else m
  | none => m

/-- Deduplication registry state of one bulkhead: the map from key to the
id of the stored promise, the cumulative `dedupHits` counter, a fresh-id
counter for promises, and the instrumentation list `pending` of cleanup
closures that are attached (`deferred.promise.then(cleanup, cleanup)`) but
whose promise has not yet settled. -/
structure RegState where
  map : List (String × Nat)
  hits : Nat
  nextPid : Nat
  pending : List (String × Nat)
deriving DecidableEq, Repr

/-- Registry state at construction: empty map, zero hits. -/
def initRegState : RegState :=
  { map := [], hits := 0, nextPid := 0, pending := [] }

/-- What the synchronous deduplication prelude of `run` decides for a call:
join an existing in-flight promise as a follower, install a fresh promise
and proceed as leader, or proceed directly with no sharing. -/
inductive DedupDecision where
  | followerJoin (pid : Nat)
  | leaderProceed (pid : Nat)
  | direct
deriving DecidableEq, Repr

/-- The synchronous prelude of `run` (lines 495 to 536 of the source): when
deduplication is on and the key is non-empty, a present map entry makes this
call a follower (`dedupHits++`, return the stored promise); an absent entry
makes it the leader (create the deferred, store it under the key, attach the
cleanup); otherwise the call proceeds directly. No `await` separates these
steps, so they are one atomic state transition. -/
def dedupPrelude (dedupEnabled : Bool) (dedupKey : String) (s : RegState) :
    DedupDecision × RegState :=
  if dedupEnabled = true ∧ dedupKey ≠ "" then
    match lookupKey s.map dedupKey with
    | some pid => (.followerJoin pid, { s with hits := s.hits + 1 })
    | none =>
        (.leaderProceed s.nextPid,
          { map := (dedupKey, s.nextPid) :: s.map, hits := s.hits,
            nextPid := s.nextPid + 1,
            pending := (dedupKey, s.nextPid) :: s.pending })
  else (.direct, s)

/-- One registry transition: a `run` call arrives (its prelude runs), or a
stored promise settles and its attached cleanup closure runs. A cleanup runs
at most once per entry (`then(cleanup, cleanup)` fires one of the two
callbacks), so it is consumed from `pending`. -/
inductive RegStep : RegState → RegState → Prop where
  | arrive (dedupEnabled : Bool) (dedupKey : String) (s : RegState) :
      RegStep s (dedupPrelude dedupEnabled dedupKey s).2
  | settle (k : String) (pid : Nat) (s : RegState) (h : (k, pid) ∈ s.pending) :
      RegStep s { map := cleanupMap k pid s.map, hits := s.hits,
                  nextPid := s.nextPid, pending := s.pending.erase (k, pid) }

/-- Registry states reachable from construction. -/
def RegReachable (s : RegState) : Prop :=
  Relation.ReflTransGen RegStep initRegState s

/-- Settlement environment for promises: settling promise `pid` with an
outcome makes that outcome observable to every holder of `pid`. -/
def settleEnv {α : Type} (env : Nat → Option α) (pid : Nat) (outcome : α) :
    Nat → Option α :=
  fun n => if n = pid then some outcome else env n

/-- What a `run` caller observes given its prelude decision: a follower
awaits the stored promise; the leader returns `resultPromise`, which settles
with its local outcome (the deferred is resolved or rejected with it, also
on an admission rejection of the leader); a direct call observes its local
outcome. -/
def runCallResult {α : Type} (decision : DedupDecision) (localOutcome : α)
    (env : Nat → Option α) : Option α :=
  match decision with
  | .followerJoin pid => env pid
  | .leaderProceed _ => some localOutcome
  | .direct => some localOutcome

/-- Hex digit used by the JSON escape of control characters. -/
def hexDigitChar (n : Nat) : Char :=
  if n < 10 then Char.ofNat (48 + n) else Char.ofNat (87 + n)

/-- JSON escape of one character, as `JSON.stringify` renders string
contents. -/
def jsonEscapeChar (c : Char) : String :=
  if c = '"' then "\\\""
  else if c = '\\' then "\\\\"
  else if c = '\x08' then "\\b"
  else if c = '\x09' then "\\t"
  else if c = '\x0a' then "\\n"
  else if c = '\x0c' then "\\f"
  else if c = '\x0d' then "\\r"
  else if c.toNat < 32 then
    "\\u00" ++ String.mk [hexDigitChar (c.toNat / 16), hexDigitChar (c.toNat % 16)]
  else String.singleton c

/-- JSON rendering of a string literal. -/
def jsonQuote (s : String) : String :=
  "\"" ++ String.join (s.data.map jsonEscapeChar) ++ "\""

/-- JSON rendering of one message object, with the key order `role`,
`content` fixed by the object literal type of the source. -/
def jsonMessageText (m : LLMMessage) : String :=
  "\x7b\"role\":" ++ jsonQuote m.role ++ ",\"content\":" ++ jsonQuote m.content ++ "\x7d"

/-- Model of `JSON.stringify(request.messages)` for the message shapes the
source admits: the bracketed comma-separated array rendering. -/
def jsonMessagesText (ms : List LLMMessage) : String :=
  "[" ++ String.intercalate "," (ms.map jsonMessageText) ++ "]"

/-- The deduplication key computation of `run` (lines 495 to 502): serialize
`request.messages` — only the messages, never `max_tokens` — and fall back
to the empty key when serialization throws (`none`). `stringify` stands for
the runtime `JSON.stringify`, a fixed deterministic function. -/
def dedupKeyOf (stringify : List LLMMessage → Option String) (request : LLMRequest) : String :=
  match stringify request.messages with
  | some k => k
  | none => ""

/-- The key of a request under the concrete `JSON.stringify` model, which
never throws on the plain-string message shapes of the source types. -/
def jsonDedupKey (request : LLMRequest) : String :=
  jsonMessagesText request.messages

/-- The preset shape of the source (`LLMBulkheadPreset`). -/
structure LLMBulkheadPreset where
  maxQueue : Option Nat := none
  timeoutMs : Option Nat := none
deriving DecidableEq, Repr

/-- The `profile` option: one of the two named presets or a custom preset
object. -/
inductive ProfileChoice where
  | interactive
  | batch
  | custom (preset : LLMBulkheadPreset)
deriving DecidableEq, Repr

/-- Entry `interactive` of the `PROFILES` record of the source. -/
def PROFILES_interactive : LLMBulkheadPreset :=
  { maxQueue := some 0 }

/-- Entry `batch` of the `PROFILES` record of the source. -/
def PROFILES_batch : LLMBulkheadPreset :=
  { maxQueue := some 20, timeoutMs := some 30000 }

/-- Function `resolvePreset` of the source: no profile gives the empty
preset, a name selects the `PROFILES` entry, an object is used as is. -/
def resolvePreset (profile : Option ProfileChoice) : LLMBulkheadPreset :=
  match profile with
  | none => {}
  | some .interactive => PROFILES_interactive
  | some .batch => PROFILES_batch
  | some (.custom p) => p

/-- Resolution `opts.maxQueue ?? preset.maxQueue ?? 0` of `createLLMBulkhead`
(nullish coalescing: an explicit 0 is kept). -/
def resolvedMaxQueue (optsMaxQueue : Option Nat) (profile : Option ProfileChoice) : Nat :=
  match optsMaxQueue with
  | some q => q
  | none =>
      match (resolvePreset profile).maxQueue with
      | some q => q
      | none => 0

/-- Resolution `opts.timeoutMs ?? preset.timeoutMs` of `createLLMBulkhead`. -/
def resolvedTimeoutMs (optsTimeoutMs : Option Nat) (profile : Option ProfileChoice) :
    Option Nat :=
  match optsTimeoutMs with
  | some t => some t
  | none => (resolvePreset profile).timeoutMs

/-- The per-call merge of `_acquire` (lines 439 to 442): the per-call
`ao.timeoutMs` when defined, else the bulkhead-level value, else nothing. -/
def mergedTimeoutMs (perCall bulkheadLevel : Option Nat) : Option Nat :=
  match perCall with
  | some t => some t
  | none => bulkheadLevel

/-- Fixed estimator used by concrete witnesses: 60 input tokens, 60 output
tokens for every request, as in the budget scenario of the specification. -/
def estFix : LLMRequest → TokenEstimate :=
  fun _ => { input := 60, maxOutput := 60 }

/-- Fixed request used by concrete witnesses. -/
def reqFix : LLMRequest :=
  { messages := [{ role := "user", content := "hello world" }], max_tokens := none }

/-- Concrete composite token used by witnesses: unreleased, slot held,
120 tokens in flight. -/
def tokFix : TokenReleaseState :=
  { released := false, baseReleaseCalls := 0, slotHeld := true, ledger := 120 }

/-! ## Ledger lemmas and the budget invariant -/

theorem tryReserve_snd (b : Int) (estimator : LLMRequest → TokenEstimate)
    (request : LLMRequest) (s : Int) :
    (tryReserveTokens (some b) estimator request s).2 = s ∨
      ((tryReserveTokens (some b) estimator request s).2 =
          s + neededTokens estimator request ∧
        s + neededTokens estimator request ≤ b) := by
  unfold tryReserveTokens neededTokens
  by_cases h : s + ((estimator request).input + (estimator request).maxOutput) > b
  · left
    simp [h]
  · right
    constructor
    · simp [h]
    · omega

theorem ledger_inv_aux (b : Int) (estimator : LLMRequest → TokenEstimate)
    (hb : 0 ≤ b)
    (hest : ∀ r : LLMRequest, 0 ≤ (estimator r).input ∧ 0 ≤ (estimator r).maxOutput)
    (s : Int) (hs : LedgerReachable b estimator s) : 0 ≤ s ∧ s ≤ b := by
  induction hs with
  | refl => exact ⟨le_refl 0, hb⟩
  | tail hab step ih =>
    rename_i s1 s2
    cases step with
    | reserve request =>
      have hnn : 0 ≤ neededTokens estimator request := by
        have h1 := (hest request).1
        have h2 := (hest request).2
        unfold neededTokens
        omega
      rcases tryReserve_snd b estimator request s1 with h | ⟨h, hle⟩ <;> rw [h]
      · exact ih
      · exact ⟨by omega, hle⟩
    | release amount h =>
      unfold releaseTokens
      exact ⟨le_max_left 0 _, max_le hb (by omega)⟩

/-- C1: for a bulkhead created with a (non-negative) token budget whose
estimator returns non-negative integer components, every ledger state
reachable by any sequence of reserve and release operations — hypothetical
double releases included — satisfies `0 ≤ inFlightTokens ≤ budget`, and the
`stats().tokenBudget` snapshot reports exactly that counter. -/
theorem ledger_budget_invariant (b : Int) (estimator : LLMRequest → TokenEstimate)
    (s : Int) (hb : 0 ≤ b)
    (hest : ∀ r : LLMRequest, 0 ≤ (estimator r).input ∧ 0 ≤ (estimator r).maxOutput)
    (hs : LedgerReachable b estimator s) :
    (0 ≤ s ∧ s ≤ b) ∧ (statsTokenBudget b s).inFlightTokens = s :=
  ⟨ledger_inv_aux b estimator hb hest s hs, rfl⟩

/-- Witness for C1 at the budget-200 scenario of the specification: the
state after one admission costing 60 + 60 = 120 is reachable and satisfies
the invariant. -/
theorem ledger_budget_invariant_w :
    ((0:Int) ≤ 120 ∧ (120:Int) ≤ 200) ∧
      (statsTokenBudget 200 120).inFlightTokens = 120 :=
  ledger_budget_invariant 200 estFix 120 (by decide)
    (fun r => by constructor <;> norm_num [estFix])
    (Relation.ReflTransGen.single (by
      have h := @LedgerStep.reserve 200 estFix reqFix 0
      simpa [tryReserveTokens, estFix] using h))

/-! ## Fail-fast pre-check and post-grant re-check of `_acquire` -/

/-- C2: with a token budget configured, when the estimated cost plus the
counter at call time exceeds the budget, `_acquire` rejects with
`budget_limit` immediately: the gate `acquire` is never invoked (the request
is never queued, for every gate outcome and queue headroom) and the ledger
is left unchanged. -/
theorem budget_precheck_fail_fast (b : Int) (estimator : LLMRequest → TokenEstimate)
    (request : LLMRequest) (ledgerAtPre : Int) (gateResult : GateResult)
    (ledgerAtGrant : Int)
    (hover : ledgerAtPre + neededTokens estimator request > b) :
    acquireModel (some b) estimator request ledgerAtPre gateResult ledgerAtGrant =
      { result := .rejected .budget_limit, ledger := ledgerAtPre,
        gateCalled := false, slotReturned := false } := by
  simp [acquireModel, budgetPreCheckFails, hover]

/-- Witness for C2: budget 200 with 120 tokens in flight rejects a 120-token
request without calling the gate. -/
theorem budget_precheck_fail_fast_w :
    acquireModel (some 200) estFix reqFix 120 .granted 120 =
      { result := .rejected .budget_limit, ledger := 120,
        gateCalled := false, slotReturned := false } :=
  budget_precheck_fail_fast 200 estFix reqFix 120 .granted 120 (by decide)

/-- C3: when the pre-check passed but the post-grant `tryReserveTokens`
finds the cost no longer fits (headroom shrank while this request waited),
`_acquire` returns the just-granted slot to the gate and rejects with
`budget_limit`, keeping the ledger unchanged: no token reservation is
retained and no concurrency slot is leaked. -/
theorem postgrant_recheck_releases_slot (b : Int) (estimator : LLMRequest → TokenEstimate)
    (request : LLMRequest) (ledgerAtPre ledgerAtGrant : Int)
    (hpre : ledgerAtPre + neededTokens estimator request ≤ b)
    (hover : ledgerAtGrant + neededTokens estimator request > b) :
    acquireModel (some b) estimator request ledgerAtPre .granted ledgerAtGrant =
      { result := .rejected .budget_limit, ledger := ledgerAtGrant,
        gateCalled := true, slotReturned := true } := by
  have h1 : ¬ (ledgerAtPre + neededTokens estimator request > b) := not_lt.mpr hpre
  have h2 : tryReserveTokens (some b) estimator request ledgerAtGrant =
      (none, ledgerAtGrant) := by
    unfold tryReserveTokens
    unfold neededTokens at hover
    simp [hover]
  simp [acquireModel, budgetPreCheckFails, h1, h2]

/-- Witness for C3: budget 200, empty ledger at the pre-check, 120 tokens
in flight by the time the gate grants; the 120-token request is rejected and
the slot returned. -/
theorem postgrant_recheck_releases_slot_w :
    acquireModel (some 200) estFix reqFix 0 .granted 120 =
      { result := .rejected .budget_limit, ledger := 120,
        gateCalled := true, slotReturned := true } :=
  postgrant_recheck_releases_slot 200 estFix reqFix 0 120 (by decide) (by decide)

/-! ## Composite token release -/

theorem wrapTokenRelease_of_released {ε : Type} (reserved : Int) (baseOutcome : Except ε Unit)
    (s : TokenReleaseState) (h : s.released = true) :
    wrapTokenRelease reserved baseOutcome s = (s, none) := by
  simp [wrapTokenRelease, h]

theorem wrapTokenRelease_fst_released {ε : Type} (reserved : Int) (baseOutcome : Except ε Unit)
    (s : TokenReleaseState) : ((wrapTokenRelease reserved baseOutcome s).1).released = true := by
  cases hs : s.released with
  | true => simp [wrapTokenRelease, hs]
  | false =>
    cases baseOutcome with
    | ok u => simp [wrapTokenRelease, hs]
    | error e => simp [wrapTokenRelease, hs]

theorem wrapTokenReleaseOk_idem (reserved : Int) (s : TokenReleaseState) :
    wrapTokenReleaseOk reserved (wrapTokenReleaseOk reserved s) =
      wrapTokenReleaseOk reserved s := by
  unfold wrapTokenReleaseOk
  rw [wrapTokenRelease_of_released _ _ _ (wrapTokenRelease_fst_released _ _ _)]

theorem wrapTokenReleaseOk_iter (reserved : Int) (s : TokenReleaseState) (n : Nat) :
    (wrapTokenReleaseOk reserved)^[n + 1] s = wrapTokenReleaseOk reserved s := by
  induction n with
  | zero => rfl
  | succ n ih =>
    rw [Function.iterate_succ_apply', ih, wrapTokenReleaseOk_idem]

/-- C4: the composite token release is idempotent. On an unreleased token the
first call releases the gate slot, returns the token reservation to the
ledger and invokes the base release exactly once; any later call (whatever
the base release would do) changes nothing and calls nothing, and n calls
have the same observable effect as one. -/
theorem composite_release_idempotent (reserved : Int) (s : TokenReleaseState)
    (b2 : Except Unit Unit) (n : Nat) (h : s.released = false) (hn : 1 ≤ n) :
    (wrapTokenReleaseOk reserved s).released = true ∧
    (wrapTokenReleaseOk reserved s).slotHeld = false ∧
    (wrapTokenReleaseOk reserved s).ledger = releaseTokens reserved s.ledger ∧
    (wrapTokenReleaseOk reserved s).baseReleaseCalls = s.baseReleaseCalls + 1 ∧
    wrapTokenRelease reserved b2 (wrapTokenReleaseOk reserved s) =
      (wrapTokenReleaseOk reserved s, none) ∧
    (wrapTokenReleaseOk reserved)^[n] s = wrapTokenReleaseOk reserved s := by
  obtain ⟨m, rfl⟩ : ∃ m, n = m + 1 := ⟨n - 1, by omega⟩
  refine ⟨?_, ?_, ?_, ?_,
    wrapTokenRelease_of_released _ _ _ (wrapTokenRelease_fst_released _ _ _),
    wrapTokenReleaseOk_iter reserved s m⟩ <;>
  simp [wrapTokenReleaseOk, wrapTokenRelease, h]

/-- Witness for C4 on a concrete unreleased token with a 120-token
reservation, released twice. -/
theorem composite_release_idempotent_w :
    (wrapTokenReleaseOk 120 tokFix).released = true ∧
    (wrapTokenReleaseOk 120 tokFix).slotHeld = false ∧
    (wrapTokenReleaseOk 120 tokFix).ledger = releaseTokens 120 tokFix.ledger ∧
    (wrapTokenReleaseOk 120 tokFix).baseReleaseCalls = tokFix.baseReleaseCalls + 1 ∧
    wrapTokenRelease 120 (Except.ok () : Except Unit Unit) (wrapTokenReleaseOk 120 tokFix) =
      (wrapTokenReleaseOk 120 tokFix, none) ∧
    (wrapTokenReleaseOk 120)^[2] tokFix = wrapTokenReleaseOk 120 tokFix :=
  composite_release_idempotent 120 tokFix (Except.ok ()) 2 rfl (by omega)

/-- C10: on an unreleased token, release marks the `released` flag before the
base slot release runs and returns the reservation in a `finally` block: even
when the base release throws `e`, the flag is set, the ledger is decremented
once, the error propagates to the caller, and a later call is a no-op, so the
reservation is returned exactly once. -/
theorem release_on_base_throw {ε : Type} (reserved : Int) (e : ε)
    (b2 : Except ε Unit) (s : TokenReleaseState) (h : s.released = false) :
    ((wrapTokenRelease reserved (Except.error e) s).1).released = true ∧
    ((wrapTokenRelease reserved (Except.error e) s).1).ledger =
      releaseTokens reserved s.ledger ∧
    ((wrapTokenRelease reserved (Except.error e) s).1).baseReleaseCalls =
      s.baseReleaseCalls + 1 ∧
    (wrapTokenRelease reserved (Except.error e) s).2 = some e ∧
    wrapTokenRelease reserved b2 ((wrapTokenRelease reserved (Except.error e) s).1) =
      ((wrapTokenRelease reserved (Except.error e) s).1, none) := by
  refine ⟨?_, ?_, ?_, ?_,
    wrapTokenRelease_of_released _ _ _ (wrapTokenRelease_fst_released _ _ _)⟩ <;>
  simp [wrapTokenRelease, h]

/-- Witness for C10: a release whose base slot release throws the string
error still returns the 120-token reservation and propagates the error. -/
theorem release_on_base_throw_w :
    ((wrapTokenRelease 120 (Except.error "slot release failed") tokFix).1).released = true ∧
    ((wrapTokenRelease 120 (Except.error "slot release failed") tokFix).1).ledger =
      releaseTokens 120 tokFix.ledger ∧
    ((wrapTokenRelease 120 (Except.error "slot release failed") tokFix).1).baseReleaseCalls =
      tokFix.baseReleaseCalls + 1 ∧
    (wrapTokenRelease 120 (Except.error "slot release failed") tokFix).2 =
      some "slot release failed" ∧
    wrapTokenRelease 120 (Except.ok () : Except String Unit)
        ((wrapTokenRelease 120 (Except.error "slot release failed") tokFix).1) =
      ((wrapTokenRelease 120 (Except.error "slot release failed") tokFix).1, none) :=
  release_on_base_throw 120 "slot release failed" (Except.ok ()) tokFix rfl

/-! ## Settlement of `run` on the direct path -/

/-- C5: for every `run` call, an admission rejection settles the returned
future with an `LLMBulkheadRejectedError` carrying the reason, whose fixed
`code` distinguishes it from any error of the work function (the two error
constructors are disjoint); an error of the work function is propagated
unchanged; and whenever a slot and reservation were acquired, both are
released before the future settles — the ledger at settlement is the
post-admission ledger with the reservation returned and no slot is held —
on normal completion and on a work-function error alike. -/
theorem run_settlement_paths {ε τ : Type} (budget : Option Int)
    (estimator : LLMRequest → TokenEstimate) (request : LLMRequest)
    (ledgerAtPre : Int) (gateResult : GateResult) (ledgerAtGrant : Int)
    (fnOutcome : Except ε τ) (reason : LLMRejectReason) (reserved : Int)
    (e : ε) (v : τ) (er : LLMBulkheadRejectedError) (ef : ε) :
    ((acquireModel budget estimator request ledgerAtPre gateResult ledgerAtGrant).result =
        .rejected reason →
      runDirectModel budget estimator request ledgerAtPre gateResult ledgerAtGrant fnOutcome =
        { result := .error (.rejection { reason := reason }),
          ledger := (acquireModel budget estimator request ledgerAtPre gateResult
            ledgerAtGrant).ledger,
          slotHeldAtSettle := false, fnInvoked := false }) ∧
    (LLMBulkheadRejectedError.mk reason).code = "LLM_BULKHEAD_REJECTED" ∧
    (RunError.rejection (ε := ε) er ≠ RunError.fnError ef) ∧
    ((acquireModel budget estimator request ledgerAtPre gateResult ledgerAtGrant).result =
        .ok reserved →
      runDirectModel budget estimator request ledgerAtPre gateResult ledgerAtGrant
          (Except.error e : Except ε τ) =
        { result := .error (.fnError e),
          ledger := releaseTokens reserved (acquireModel budget estimator request
            ledgerAtPre gateResult ledgerAtGrant).ledger,
          slotHeldAtSettle := false, fnInvoked := true }) ∧
    ((acquireModel budget estimator request ledgerAtPre gateResult ledgerAtGrant).result =
        .ok reserved →
      runDirectModel budget estimator request ledgerAtPre gateResult ledgerAtGrant
          (Except.ok v : Except ε τ) =
        { result := .ok v,
          ledger := releaseTokens reserved (acquireModel budget estimator request
            ledgerAtPre gateResult ledgerAtGrant).ledger,
          slotHeldAtSettle := false, fnInvoked := true }) := by
  refine ⟨?_, rfl, by simp, ?_, ?_⟩ <;>
    intro h <;> simp [runDirectModel, h]

/-- Witness for C5: no budget configured, gate granted, so admission yields
a zero-token reservation; a work function settling with the value 7 and one
rejecting with the string error are both propagated, and a gate timeout is
surfaced as the typed rejection. -/
theorem run_settlement_paths_w :
    ((acquireModel none estFix reqFix 0 (.rejected .timeout) 0).result =
        .rejected .timeout →
      runDirectModel none estFix reqFix 0 (.rejected .timeout) 0
          (Except.ok (7 : Nat) : Except String Nat) =
        { result := .error (.rejection { reason := .timeout }),
          ledger := (acquireModel none estFix reqFix 0 (.rejected .timeout) 0).ledger,
          slotHeldAtSettle := false, fnInvoked := false }) ∧
    (LLMBulkheadRejectedError.mk .timeout).code = "LLM_BULKHEAD_REJECTED" ∧
    (RunError.rejection (ε := String) { reason := .timeout } ≠
      RunError.fnError "boom") ∧
    ((acquireModel none estFix reqFix 0 (.rejected .timeout) 0).result = .ok 0 →
      runDirectModel none estFix reqFix 0 (.rejected .timeout) 0
          (Except.error "boom" : Except String Nat) =
        { result := .error (.fnError "boom"),
          ledger := releaseTokens 0 (acquireModel none estFix reqFix 0
            (.rejected .timeout) 0).ledger,
          slotHeldAtSettle := false, fnInvoked := true }) ∧
    ((acquireModel none estFix reqFix 0 (.rejected .timeout) 0).result = .ok 0 →
      runDirectModel none estFix reqFix 0 (.rejected .timeout) 0
          (Except.ok 7 : Except String Nat) =
        { result := .ok 7,
          ledger := releaseTokens 0 (acquireModel none estFix reqFix 0
            (.rejected .timeout) 0).ledger,
          slotHeldAtSettle := false, fnInvoked := true }) :=
  run_settlement_paths none estFix reqFix 0 (.rejected .timeout) 0
    (Except.ok 7) .timeout 0 "boom" 7 { reason := .timeout } "boom"

/-! ## Deduplication registry lemmas -/

theorem lookupKey_eq_none (m : List (String × Nat)) (k : String) :
    lookupKey m k = none ↔ k ∉ m.map Prod.fst := by
  induction m with
  | nil => simp [lookupKey]
  | cons a rest ih =>
    obtain ⟨k1, v1⟩ := a
    by_cases h : k1 = k
    · subst h
      simp [lookupKey]
    · simp only [lookupKey, if_neg h, List.map_cons, List.mem_cons, ih]
      constructor
      · intro hnk hor
        rcases hor with h1 | h2
        · exact h h1.symm
        · exact hnk h2
      · intro hall h2
        exact hall (Or.inr h2)

theorem lookupKey_of_mem_nodup (m : List (String × Nat)) (k : String) (v : Nat)
    (hnd : (m.map Prod.fst).Nodup) (hm : (k, v) ∈ m) : lookupKey m k = some v := by
  induction m with
  | nil => cases hm
  | cons a rest ih =>
    obtain ⟨k1, v1⟩ := a
    simp only [List.map_cons, List.nodup_cons] at hnd
    rcases List.mem_cons.mp hm with heq | hmem
    · obtain ⟨rfl, rfl⟩ := Prod.mk.injEq .. |>.mp heq.symm
      simp [lookupKey]
    · have hk : ¬ k1 = k := by
        intro h
        subst h
        exact hnd.1 (List.mem_map_of_mem Prod.fst hmem)
      simp only [lookupKey, if_neg hk]
      exact ih hnd.2 hmem

theorem mem_of_lookupKey (m : List (String × Nat)) (k : String) (v : Nat)
    (h : lookupKey m k = some v) : (k, v) ∈ m := by
  induction m with
  | nil => simp [lookupKey] at h
  | cons a rest ih =>
    obtain ⟨k1, v1⟩ := a
    by_cases hk : k1 = k
    · subst hk
      have hc : lookupKey ((k1, v1) :: rest) k1 = some v1 := by simp [lookupKey]
      rw [hc, Option.some.injEq] at h
      subst h
      exact List.mem_cons_self _ _
    · simp only [lookupKey, if_neg hk] at h
      exact List.mem_cons_of_mem _ (ih h)

theorem eraseKey_sublist (m : List (String × Nat)) (k : String) :
    List.Sublist (eraseKey m k) m := by
  induction m with
  | nil => simp [eraseKey]
  | cons a rest ih =>
    obtain ⟨k1, v1⟩ := a
    by_cases h : k1 = k
    · simp only [eraseKey, if_pos h]
      exact List.sublist_cons_self _ _
    · simp only [eraseKey, if_neg h]
      exact List.Sublist.cons₂ _ ih

theorem keys_eraseKey_not_mem (m : List (String × Nat)) (k : String)
    (hnd : (m.map Prod.fst).Nodup) : k ∉ (eraseKey m k).map Prod.fst := by
  induction m with
  | nil => simp [eraseKey]
  | cons a rest ih =>
    obtain ⟨k1, v1⟩ := a
    simp only [List.map_cons, List.nodup_cons] at hnd
    by_cases h : k1 = k
    · subst h
      simp only [eraseKey, if_pos rfl]
      exact hnd.1
    · simp only [eraseKey, if_neg h, List.map_cons, List.mem_cons]
      intro hor
      rcases hor with h1 | h2
      · exact h h1.symm
      · exact ih hnd.2 h2

theorem cleanupMap_miss (k : String) (pid : Nat) (m : List (String × Nat))
    (hl : lookupKey m k = none) : cleanupMap k pid m = m := by
  unfold cleanupMap
  rw [hl]

theorem cleanupMap_stale (k : String) (pid p : Nat) (m : List (String × Nat))
    (hl : lookupKey m k = some p) (hne : p ≠ pid) : cleanupMap k pid m = m := by
  unfold cleanupMap
  rw [hl]
  exact if_neg hne

theorem cleanupMap_hit (k : String) (pid : Nat) (m : List (String × Nat))
    (hl : lookupKey m k = some pid) : cleanupMap k pid m = eraseKey m k := by
  unfold cleanupMap
  rw [hl]
  exact if_pos rfl

theorem cleanupMap_sublist (k : String) (pid : Nat) (m : List (String × Nat)) :
    List.Sublist (cleanupMap k pid m) m := by
  cases hl : lookupKey m k with
  | none => rw [cleanupMap_miss k pid m hl]
  | some p =>
    by_cases hp : p = pid
    · subst hp
      rw [cleanupMap_hit k p m hl]
      exact eraseKey_sublist m k
    · rw [cleanupMap_stale k pid p m hl hp]

theorem mem_cleanupMap_ne (k : String) (pid : Nat) (m : List (String × Nat))
    (e : String × Nat) (hnd : (m.map Prod.fst).Nodup)
    (he : e ∈ cleanupMap k pid m) : e ∈ m ∧ e ≠ (k, pid) := by
  have hm : e ∈ m := (cleanupMap_sublist k pid m).subset he
  refine ⟨hm, ?_⟩
  rintro rfl
  cases hl : lookupKey m k with
  | none =>
    exact (lookupKey_eq_none m k).mp hl (List.mem_map_of_mem Prod.fst hm)
  | some p =>
    by_cases hp : p = pid
    · subst hp
      rw [cleanupMap_hit k p m hl] at he
      exact keys_eraseKey_not_mem m k hnd (List.mem_map_of_mem Prod.fst he)
    · have hlp := lookupKey_of_mem_nodup m k pid hnd hm
      rw [hl] at hlp
      exact hp (Option.some.inj hlp)

theorem reg_inv (s : RegState) (h : RegReachable s) :
    (∀ e ∈ s.map, e ∈ s.pending) ∧ (s.map.map Prod.fst).Nodup := by
  induction h with
  | refl => simp [initRegState]
  | tail hab step ih =>
    rename_i s1 s2
    obtain ⟨ih1, ih2⟩ := ih
    cases step with
    | arrive dedupEnabled dedupKey =>
      by_cases hc : dedupEnabled = true ∧ dedupKey ≠ ""
      · cases hl : lookupKey s1.map dedupKey with
        | some pid =>
          simp only [dedupPrelude, if_pos hc, hl]
          exact ⟨ih1, ih2⟩
        | none =>
          simp only [dedupPrelude, if_pos hc, hl]
          constructor
          · intro e he
            rcases List.mem_cons.mp he with rfl | hmem
            · exact List.mem_cons_self _ _
            · exact List.mem_cons_of_mem _ (ih1 e hmem)
          · simp only [List.map_cons, List.nodup_cons]
            exact ⟨(lookupKey_eq_none s1.map dedupKey).mp hl, ih2⟩
      · simp only [dedupPrelude, if_neg hc]
        exact ⟨ih1, ih2⟩
    | settle k pid hpend =>
      constructor
      · intro e he
        have hem := mem_cleanupMap_ne k pid s1.map e ih2 he
        exact (List.mem_erase_of_ne hem.2).mpr (ih1 e hem.1)
      · exact ih2.sublist ((cleanupMap_sublist k pid s1.map).map Prod.fst)

theorem regStep_hits_mono (s2 s3 : RegState) (hstep : RegStep s2 s3) :
    s2.hits ≤ s3.hits := by
  cases hstep with
  | arrive dedupEnabled dedupKey =>
    by_cases hc : dedupEnabled = true ∧ dedupKey ≠ ""
    · cases hl : lookupKey s2.map dedupKey with
      | some pid =>
        simp only [dedupPrelude, if_pos hc, hl]
        omega
      | none =>
        simp only [dedupPrelude, if_pos hc, hl]
        exact le_refl _
    · simp only [dedupPrelude, if_neg hc]
      exact le_refl _
  | settle k pid hpend =>
    exact le_refl _

/-- C7: for every reachable registry state, once every scheduled cleanup has
run the map is empty (no ghost entries); a cleanup whose key now maps to a
different promise removes nothing (a newer leader for the same key is never
evicted); running a cleanup twice equals running it once (removal happens at
most once); after a cleanup removes its own entry a lookup misses; and a
request arriving at a state with no entry for its non-empty key becomes a
new leader. The cleanup function is total, modelling that the closure never
throws. -/
theorem registry_no_ghost_entries (s : RegState) (k : String) (pid p : Nat)
    (m : List (String × Nat)) (t : RegState) (hreach : RegReachable s) :
    (s.pending = [] → s.map = []) ∧
    (lookupKey m k = some p → p ≠ pid → cleanupMap k pid m = m) ∧
    ((m.map Prod.fst).Nodup →
      cleanupMap k pid (cleanupMap k pid m) = cleanupMap k pid m) ∧
    ((m.map Prod.fst).Nodup → lookupKey m k = some pid →
      lookupKey (cleanupMap k pid m) k = none) ∧
    (k ≠ "" → lookupKey t.map k = none →
      (dedupPrelude true k t).1 = .leaderProceed t.nextPid) := by
  obtain ⟨h1, h2⟩ := reg_inv s hreach
  refine ⟨?_, ?_, ?_, ?_, ?_⟩
  · intro hp
    rw [hp] at h1
    cases hm : s.map with
    | nil => rfl
    | cons a rest =>
      exact absurd (h1 a (hm ▸ List.mem_cons_self a rest)) (List.not_mem_nil a)
  · intro hl hne
    exact cleanupMap_stale k pid p m hl hne
  · intro hnd
    cases hl : lookupKey m k with
    | none =>
      rw [cleanupMap_miss k pid m hl, cleanupMap_miss k pid m hl]
    | some q =>
      by_cases hq : q = pid
      · subst hq
        rw [cleanupMap_hit k q m hl]
        exact cleanupMap_miss k q _
          ((lookupKey_eq_none _ _).mpr (keys_eraseKey_not_mem m k hnd))
      · rw [cleanupMap_stale k pid q m hl hq, cleanupMap_stale k pid q m hl hq]
  · intro hnd hl
    rw [cleanupMap_hit k pid m hl]
    exact (lookupKey_eq_none _ _).mpr (keys_eraseKey_not_mem m k hnd)
  · intro hk hl
    simp [dedupPrelude, hk, hl]

/-- Witness for C7 at the initial registry, a stale cleanup on the map
holding promise 1 under the key, and a fresh leader arrival. -/
theorem registry_no_ghost_entries_w :
    (initRegState.pending = [] → initRegState.map = []) ∧
    (lookupKey [("k", 1)] "k" = some 1 → 1 ≠ 0 →
      cleanupMap "k" 0 [("k", 1)] = [("k", 1)]) ∧
    (((([("k", 1)] : List (String × Nat)).map Prod.fst).Nodup) →
      cleanupMap "k" 0 (cleanupMap "k" 0 [("k", 1)]) = cleanupMap "k" 0 [("k", 1)]) ∧
    (((([("k", 1)] : List (String × Nat)).map Prod.fst).Nodup) →
      lookupKey [("k", 1)] "k" = some 0 →
      lookupKey (cleanupMap "k" 0 [("k", 1)]) "k" = none) ∧
    ("k" ≠ "" → lookupKey initRegState.map "k" = none →
      (dedupPrelude true "k" initRegState).1 = .leaderProceed initRegState.nextPid) :=
  registry_no_ghost_entries initRegState "k" 0 1 [("k", 1)] initRegState
    Relation.ReflTransGen.refl

/-- C6: a `run` call whose key already has an in-flight entry joins it as a
follower: the prelude returns the stored promise id, bumps `hits` by exactly
one and leaves the map untouched; what the follower observes is independent
of its own work function (which is never invoked); once the promise of the leader
settles with outcome `o` — a value, a work error or an
admission rejection of the leader itself — both the follower and the leader observe exactly `o`;
and no registry step ever decreases the `hits` counter. -/
theorem dedup_follower_shares_leader {α : Type} (s : RegState) (key : String)
    (pid : Nat) (env : Nat → Option α) (o o1 o2 : α) (s2 s3 : RegState)
    (hk : key ≠ "") (hm : lookupKey s.map key = some pid)
    (hstep : RegStep s2 s3) :
    dedupPrelude true key s = (.followerJoin pid, { s with hits := s.hits + 1 }) ∧
    runCallResult (.followerJoin pid) o1 env =
      runCallResult (.followerJoin pid) o2 env ∧
    runCallResult (.followerJoin pid) o1 (settleEnv env pid o) = some o ∧
    runCallResult (.leaderProceed pid) o (settleEnv env pid o) = some o ∧
    s2.hits ≤ s3.hits := by
  refine ⟨?_, rfl, ?_, rfl, regStep_hits_mono s2 s3 hstep⟩
  · simp [dedupPrelude, hk, hm]
  · simp [runCallResult, settleEnv]

/-- Witness for C6: a follower joining the in-flight entry for promise 0 in
a registry with 3 prior hits, while a leader arrival runs at the empty
registry; outcome 42 is shared. -/
theorem dedup_follower_shares_leader_w :
    dedupPrelude true "k"
        { map := [("k", 0)], hits := 3, nextPid := 1, pending := [("k", 0)] } =
      (.followerJoin 0,
        { map := [("k", 0)], hits := 4, nextPid := 1, pending := [("k", 0)] }) ∧
    runCallResult (.followerJoin 0) (1 : Nat) (fun _ => none) =
      runCallResult (.followerJoin 0) (2 : Nat) (fun _ => none) ∧
    runCallResult (.followerJoin 0) (1 : Nat) (settleEnv (fun _ => none) 0 42) =
      some 42 ∧
    runCallResult (.leaderProceed 0) (42 : Nat) (settleEnv (fun _ => none) 0 42) =
      some 42 ∧
    initRegState.hits ≤ ((dedupPrelude true "k" initRegState).2).hits :=
  dedup_follower_shares_leader
    { map := [("k", 0)], hits := 3, nextPid := 1, pending := [("k", 0)] }
    "k" 0 (fun _ => none) 42 1 2 initRegState ((dedupPrelude true "k" initRegState).2)
    (by decide) (by decide) (RegStep.arrive true "k" initRegState)

/-! ## Deduplication key and option resolution -/

/-- C8: the deduplication key of `run` is computed from `request.messages`
alone, so two requests with element-wise identical messages get equal keys
whatever their `max_tokens` fields are — under any serializer, and in
particular under the concrete `JSON.stringify` model, whose key is moreover
never the empty string, so such requests are treated as duplicates; and when
serialization fails the key falls back to the empty string and the prelude
proceeds directly, with deduplication disabled for that call and the
registry untouched. -/
theorem dedup_key_excludes_output_hint (stringify : List LLMMessage → Option String)
    (r1 r2 r3 : LLMRequest) (dedupEnabled : Bool) (s : RegState)
    (hmsg : r1.messages = r2.messages) :
    dedupKeyOf stringify r1 = dedupKeyOf stringify r2 ∧
    jsonDedupKey r1 = jsonDedupKey r2 ∧
    jsonDedupKey r1 ≠ "" ∧
    (stringify r3.messages = none →
      dedupPrelude dedupEnabled (dedupKeyOf stringify r3) s = (.direct, s)) := by
  refine ⟨?_, ?_, ?_, ?_⟩
  · unfold dedupKeyOf
    rw [hmsg]
  · unfold jsonDedupKey
    rw [hmsg]
  · unfold jsonDedupKey jsonMessagesText
    intro hcontra
    have h9 := congrArg String.length hcontra
    rw [String.length_append, String.length_append] at h9
    have e1 : "[".length = 1 := rfl
    have e2 : "]".length = 1 := rfl
    have e3 : ("" : String).length = 0 := rfl
    omega
  · intro hser
    have hkey : dedupKeyOf stringify r3 = "" := by
      unfold dedupKeyOf
      rw [hser]
    rw [hkey]
    simp [dedupPrelude]

/-- Witness for C8: two requests sharing one message list but differing in
`max_tokens` (100 versus absent) get the same key, and a serializer that
throws sends the call down the direct path. -/
theorem dedup_key_excludes_output_hint_w :
    dedupKeyOf (fun _ => none)
        { messages := [{ role := "user", content := "hello world" }],
          max_tokens := some 100 } =
      dedupKeyOf (fun _ => none)
        { messages := [{ role := "user", content := "hello world" }],
          max_tokens := none } ∧
    jsonDedupKey
        { messages := [{ role := "user", content := "hello world" }],
          max_tokens := some 100 } =
      jsonDedupKey
        { messages := [{ role := "user", content := "hello world" }],
          max_tokens := none } ∧
    jsonDedupKey
        { messages := [{ role := "user", content := "hello world" }],
          max_tokens := some 100 } ≠ "" ∧
    ((fun (_ : List LLMMessage) => (none : Option String)) reqFix.messages = none →
      dedupPrelude true (dedupKeyOf (fun _ => none) reqFix) initRegState =
        (.direct, initRegState)) :=
  dedup_key_excludes_output_hint (fun _ => none)
    { messages := [{ role := "user", content := "hello world" }],
      max_tokens := some 100 }
    { messages := [{ role := "user", content := "hello world" }],
      max_tokens := none }
    reqFix true initRegState rfl

/-- C9: the effective wait-timeout handed to the gate is the per-call
`timeoutMs` when given, otherwise the bulkhead-level value; the
bulkhead-level `timeoutMs` defaults to the value of the resolved preset;
`maxQueue` is the explicit option when given, else the preset value, else 0;
the named presets resolve to `interactive = (maxQueue 0)` and
`batch = (maxQueue 20, timeoutMs 30000)`; and explicit values, an explicit 0
included, always override preset defaults. -/
theorem option_resolution_presets (q t : Nat) (pr : Option ProfileChoice)
    (bt : Option Nat) :
    mergedTimeoutMs (some t) bt = some t ∧
    mergedTimeoutMs none bt = bt ∧
    resolvedMaxQueue (some q) pr = q ∧
    resolvedTimeoutMs (some t) pr = some t ∧
    resolvedTimeoutMs none pr = (resolvePreset pr).timeoutMs ∧
    ((resolvePreset pr).maxQueue = some q → resolvedMaxQueue none pr = q) ∧
    ((resolvePreset pr).maxQueue = none → resolvedMaxQueue none pr = 0) ∧
    PROFILES_interactive = { maxQueue := some 0, timeoutMs := none } ∧
    PROFILES_batch = { maxQueue := some 20, timeoutMs := some 30000 } ∧
    resolvedMaxQueue none (some .interactive) = 0 ∧
    resolvedMaxQueue none (some .batch) = 20 ∧
    resolvedTimeoutMs none (some .batch) = some 30000 ∧
    resolvedMaxQueue none none = 0 ∧
    resolvedTimeoutMs none none = none := by
  refine ⟨rfl, rfl, rfl, rfl, rfl, ?_, ?_, rfl, rfl, rfl, rfl, rfl, rfl, rfl⟩
  · intro h
    simp [resolvedMaxQueue, h]
  · intro h
    simp [resolvedMaxQueue, h]

/-- Witness for C9 at an explicit per-call timeout of 5000 ms, an explicit
`maxQueue` of 0 and a custom preset. -/
theorem option_resolution_presets_w :
    mergedTimeoutMs (some 5000) (some 30000) = some 5000 ∧
    mergedTimeoutMs none (some 30000) = some 30000 ∧
    resolvedMaxQueue (some 0) (some (.custom { maxQueue := some 7, timeoutMs := some 9 })) = 0 ∧
    resolvedTimeoutMs (some 5000) (some (.custom { maxQueue := some 7, timeoutMs := some 9 })) = some 5000 ∧
    resolvedTimeoutMs none (some (.custom { maxQueue := some 7, timeoutMs := some 9 })) =
      (resolvePreset (some (.custom { maxQueue := some 7, timeoutMs := some 9 }))).timeoutMs ∧
    ((resolvePreset (some (.custom { maxQueue := some 7, timeoutMs := some 9 }))).maxQueue = some 0 →
      resolvedMaxQueue none (some (.custom { maxQueue := some 7, timeoutMs := some 9 })) = 0) ∧
    ((resolvePreset (some (.custom { maxQueue := some 7, timeoutMs := some 9 }))).maxQueue = none →
      resolvedMaxQueue none (some (.custom { maxQueue := some 7, timeoutMs := some 9 })) = 0) ∧
    PROFILES_interactive = { maxQueue := some 0, timeoutMs := none } ∧
    PROFILES_batch = { maxQueue := some 20, timeoutMs := some 30000 } ∧
    resolvedMaxQueue none (some .interactive) = 0 ∧
    resolvedMaxQueue none (some .batch) = 20 ∧
    resolvedTimeoutMs none (some .batch) = some 30000 ∧
    resolvedMaxQueue none none = 0 ∧
    resolvedTimeoutMs none none = none :=
  option_resolution_presets 0 5000
    (some (.custom { maxQueue := some 7, timeoutMs := some 9 })) (some 30000)
